import Mathlib

/-!
Verification of the replica reconciliation engine
(`src/packages/mongo/replication_store.js`).

The engine applies wire messages (`added`, `changed`, `removed`, `replace`)
to a local document collection, bracketing batches with observer
pause/resume and an optional full reset.  We embed the `ReplicationStore`
class shallowly: the mutable `this.collection` becomes an explicit
`Collection` state threaded through the operations, JavaScript exceptions
become `Except` errors carrying the collection state at the throw point,
and calls into the collection are recorded as events so that claims about
notification suspension and mutation counts can be stated.
-/

set_option autoImplicit false

/-- Field values carried by documents and messages.  Deep equality
(`EJSON.equals`) is an external primitive; we model values as a small
inductive with decidable structural equality standing in for it. -/
inductive Val where
  | num : Int → Val
  | str : String → Val
deriving DecidableEq, Repr

/-- A document: a finite mapping from field name to value (the `_id` field
is kept separately as the store key).  JavaScript objects have at most one
binding per key; lookup takes the first binding. -/
abbrev Doc := List (String × Val)

/-- Document identifiers.  `MongoID.idParse` and identifier generation are
external; identifiers are modelled as an opaque comparable key. -/
abbrev DocId := Nat

/-- `doc[key]`: `none` models JavaScript `undefined` (field absent). -/
def docGet : Doc → String → Option Val
  | [], _ => none
  | (k, v) :: rest, key => if k = key then some v else docGet rest key

/-- Overwrite or append a field binding (effect of a `$set` entry). -/
def docSet : Doc → String → Val → Doc
  | [], key, v => [(key, v)]
  | (k, w) :: rest, key, v =>
      if k = key then (k, v) :: rest else (k, w) :: docSet rest key v

/-- Delete a field binding (effect of a `$unset` entry). -/
def docUnset : Doc → String → Doc
  | [], _ => []
  | (k, v) :: rest, key =>
      if k = key then docUnset rest key else (k, v) :: docUnset rest key

/-- The Mongo modifier built by `_processChanged`: the contents of
`modifier.$set` and `modifier.$unset`, in insertion order. -/
structure Modifier where
  set : List (String × Val)
  unset : List String
deriving DecidableEq, Repr

/-- `Object.keys(modifier).length > 0`: the modifier object received at
least one of the `$set` / `$unset` keys. -/
def Modifier.nonEmpty (m : Modifier) : Bool :=
  !(m.set.isEmpty && m.unset.isEmpty)

/-- One iteration of the `keys.forEach` loop in `_processChanged`:
skip the key when `EJSON.equals(doc[key], value)` holds (with `none`
playing JavaScript `undefined`), otherwise route it to `$unset` for the
absent sentinel and to `$set` for an ordinary value. -/
def modStep (doc : Doc) (m : Modifier) (kv : String × Option Val) : Modifier :=
  if docGet doc kv.1 = kv.2 then m
  else
    match kv.2 with
    | none => { m with unset := m.unset ++ [kv.1] }
    | some v => { m with set := m.set ++ [(kv.1, v)] }

/-- The whole `keys.forEach` loop: fold `modStep` over the proposed
fields of a `changed` message, starting from the empty modifier. -/
def computeModifier (doc : Doc) (fields : List (String × Option Val)) : Modifier :=
  fields.foldl (modStep doc) ⟨[], []⟩

/-- Apply a `{$set, $unset}` modifier to a document (the store-side
semantics of `collection.update(id, modifier)` for the disjoint modifiers
this engine produces). -/
def applyModifier (d : Doc) (m : Modifier) : Doc :=
  m.unset.foldl docUnset (m.set.foldl (fun d kv => docSet d kv.1 kv.2) d)

/-- Calls issued by the `ReplicationStore` against its collection,
recorded in order. -/
inductive Event where
  | pauseObservers
  | resumeObservers
  | insertEv (id : DocId) (d : Doc)
  | updateEv (id : DocId)
  | removeEv (id : DocId)
  | removeAll
deriving DecidableEq, Repr

/-- Modelled from the spec: the external Document Store collaborator
(§4.1 and §6) — `minimongo`s `LocalCollection` is not part of `src/`.
It holds documents keyed by identifier and records every operation the
reconciler invokes on it.  `docs` models `collection._docs`. -/
structure Collection where
  docs : List (DocId × Doc)
  events : List Event
deriving DecidableEq, Repr

def Collection.empty : Collection := ⟨[], []⟩

/-- `collection._docs.get(mongoId)`. -/
def Collection.getDoc (c : Collection) (id : DocId) : Option Doc :=
  match c.docs.find? (fun e => e.1 = id) with
  | some e => some e.2
  | none => none

/-- Modelled from the spec: `suspend_notifications()` on the store. -/
def Collection.pauseObservers (c : Collection) : Collection :=
  { c with events := c.events ++ [Event.pauseObservers] }

/-- Modelled from the spec: `resume_notifications()` on the store. -/
def Collection.resumeObservers (c : Collection) : Collection :=
  { c with events := c.events ++ [Event.resumeObservers] }

/-- Modelled from the spec: `remove_all()` — `collection.remove({})`. -/
def Collection.removeAllDocs (c : Collection) : Collection :=
  { docs := [], events := c.events ++ [Event.removeAll] }

/-- Modelled from the spec: `insert(doc)`; the reconciler only calls it
for identifiers it has just looked up as absent. -/
def Collection.insert (c : Collection) (id : DocId) (d : Doc) : Collection :=
  { docs := c.docs ++ [(id, d)], events := c.events ++ [Event.insertEv id d] }

/-- Modelled from the spec: `remove(id)`; the reconciler only calls it
for identifiers it has just looked up as present. -/
def Collection.remove (c : Collection) (id : DocId) : Collection :=
  { docs := c.docs.filter (fun e => e.1 ≠ id),
    events := c.events ++ [Event.removeEv id] }

/-- Modelled from the spec: `update(id, modifier)` with a `{$set,$unset}`
modifier. -/
def Collection.updateModifier (c : Collection) (id : DocId) (m : Modifier) : Collection :=
  { docs := c.docs.map (fun e => if e.1 = id then (e.1, applyModifier e.2 m) else e),
    events := c.events ++ [Event.updateEv id] }

/-- Modelled from the spec: `update(id, doc)` with a plain document —
a full-document overwrite keeping the identifier. -/
def Collection.updateReplace (c : Collection) (id : DocId) (d : Doc) : Collection :=
  { docs := c.docs.map (fun e => if e.1 = id then (e.1, d) else e),
    events := c.events ++ [Event.updateEv id] }

/-- A wire message as received by `update`.  `msg` is the tag string;
`fields := none` models a message with no `fields` property at all, while
`some fs` carries the field mapping, whose values use `none` for the
absent sentinel (`undefined`).  `replace := none` models a falsy
`msg.replace` (absent or `null`). -/
structure Msg where
  msg : String
  id : DocId
  fields : Option (List (String × Option Val)) := none
  replace : Option Doc := none

/-- `MongoID.idParse`: identifier parsing is external; modelled as the
identity on already-parsed identifiers. -/
def idParse (i : DocId) : DocId := i

/-- `{ _id: mongoId, ...msg.fields }` — spreading a missing `fields`
contributes nothing, and a field spread with value `undefined` is
indistinguishable from an absent field in this store. -/
def fieldsToDoc (fs : Option (List (String × Option Val))) : Doc :=
  (fs.getD []).filterMap (fun kv => kv.2.map (fun v => (kv.1, v)))

namespace ReplicationStore

/-- `_processAdded`. -/
def processAdded (c : Collection) (id : DocId) (m : Msg) : Collection :=
  c.insert id (fieldsToDoc m.fields)

/-- `_processRemoved`. -/
def processRemoved (c : Collection) (id : DocId) : Collection :=
  c.remove id

/-- `_processReplace`: a falsy `msg.replace` means delete-if-present;
otherwise insert when absent, full overwrite when present. -/
def processReplace (c : Collection) (id : DocId) (doc : Option Doc) (m : Msg) :
    Collection :=
  match m.replace with
  | none =>
      match doc with
      | some _ => c.remove id
      | none => c
  | some rep =>
      match doc with
      | none => c.insert id rep
      | some _ => c.updateReplace id rep

/-- `_processChanged`.  `Object.keys(msg.fields)` on a missing `fields`
property throws a `TypeError`, modelled as an error carrying the
untouched collection.  Otherwise the modifier is computed and forwarded
to `collection.update` only when non-empty. -/
def processChanged (c : Collection) (id : DocId) (doc : Doc) (m : Msg) :
    Except (String × Collection) Collection :=
  match m.fields with
  | none => .error ("TypeError: cannot convert undefined to object", c)
  | some fs =>
      if fs.length > 0 then
        let modifier := computeModifier doc fs
        if modifier.nonEmpty then .ok (c.updateModifier id modifier)
        else .ok c
      else .ok c

/-- `update(msg)`: parse the identifier, look the document up, and
dispatch on the tag, throwing on precondition violations and unknown
tags.  Errors carry the collection state at the throw point. -/
def update (c : Collection) (m : Msg) : Except (String × Collection) Collection :=
  let mongoId := idParse m.id
  let doc := c.getDoc mongoId
  if m.msg = "replace" then
    .ok (processReplace c mongoId doc m)
  else if m.msg = "added" then
    match doc with
    | some _ =>
        .error ("Expected not to find a document already present for an add", c)
    | none => .ok (processAdded c mongoId m)
  else if m.msg = "removed" then
    match doc with
    | none =>
        .error ("Expected to find a document already present for removed", c)
    | some _ => .ok (processRemoved c mongoId)
  else if m.msg = "changed" then
    match doc with
    | none => .error ("Expected to find a document to change", c)
    | some d => processChanged c mongoId d m
  else
    .error ("I do not know how to deal with this message", c)

/-- `beginUpdate(batchSize, reset)`. -/
def beginUpdate (c : Collection) (batchSize : Nat) (reset : Bool) : Collection :=
  let c1 := if batchSize > 1 || reset then c.pauseObservers else c
  if reset then c1.removeAllDocs else c1

/-- `endUpdate()`. -/
def endUpdate (c : Collection) : Collection :=
  c.resumeObservers

/-- Apply a list of messages in order, stopping at the first error
(a thrown error aborts the in-progress batch). -/
def applyAll : Collection → List Msg → Except (String × Collection) Collection
  | c, [] => .ok c
  | c, m :: rest =>
      match update c m with
      | .ok c2 => applyAll c2 rest
      | .error e => .error e

/-- A full `beginUpdate` / `update`* / `endUpdate` bracket. -/
def runBatch (c : Collection) (batchSize : Nat) (reset : Bool) (msgs : List Msg) :
    Except (String × Collection) Collection :=
  match applyAll (beginUpdate c batchSize reset) msgs with
  | .ok c2 => .ok (endUpdate c2)
  | .error e => .error e

end ReplicationStore

/-- Whether an `update` call completed without throwing. -/
def updOk (r : Except (String × Collection) Collection) : Bool :=
  match r with
  | .ok _ => true
  | .error _ => false

/-- Number of `pauseObservers` calls recorded. -/
def countPause (es : List Event) : Nat :=
  (es.filter (fun e => e = Event.pauseObservers)).length

/-- Number of `resumeObservers` calls recorded. -/
def countResume (es : List Event) : Nat :=
  (es.filter (fun e => e = Event.resumeObservers)).length

/-- Number of `collection.update` calls recorded. -/
def countUpdateCalls (es : List Event) : Nat :=
  (es.filter (fun e => match e with | Event.updateEv _ => true | _ => false)).length

/-! ### Helper lemmas -/

theorem countPause_append (es1 es2 : List Event) :
    countPause (es1 ++ es2) = countPause es1 + countPause es2 := by
  simp [countPause, List.filter_append]

theorem countResume_append (es1 es2 : List Event) :
    countResume (es1 ++ es2) = countResume es1 + countResume es2 := by
  simp [countResume, List.filter_append]

theorem docGet_docUnset (d : Doc) (k k2 : String) :
    docGet (docUnset d k) k2 = if k2 = k then none else docGet d k2 := by
  induction d with
  | nil => simp [docUnset, docGet]
  | cons kv rest ih =>
      obtain ⟨a, b⟩ := kv
      by_cases ha : a = k
      · subst ha
        by_cases hb : k2 = a
        · subst hb
          simp [docUnset, docGet, ih]
        · have hab : ¬ a = k2 := fun hcon => hb hcon.symm
          simp [docUnset, docGet, hb, hab, ih]
      · by_cases hb : a = k2
        · subst hb
          simp [docUnset, docGet, ha]
        · simp [docUnset, docGet, ha, hb, ih]

/-- C2 helper: the collection used in concrete examples. -/
def exDoc : Doc := [("x", Val.num 1)]

/-! ### C2 -/

/-- C2 counterexample: a message carrying the spec wire tag `"replaced"`
with a replacement document and an absent identifier is rejected by
`update` as an unknown message instead of being inserted. -/
theorem C2_counterexample :
    ReplicationStore.update Collection.empty ⟨"replaced", 1, none, some exDoc⟩ =
      .error ("I do not know how to deal with this message", Collection.empty) := rfl

/-- C2 (amended): the tag the reconciler recognizes for replacement is
`"replace"`; a `"replace"` message with a replacement document and an
absent identifier inserts the document into the store. -/
theorem C2_replace_inserts (c : Collection) (m : Msg) (d : Doc)
    (htag : m.msg = "replace") (hrep : m.replace = some d)
    (habs : c.getDoc (idParse m.id) = none) :
    ReplicationStore.update c m = .ok (c.insert (idParse m.id) d) := by
  simp [ReplicationStore.update, htag, habs, ReplicationStore.processReplace, hrep]

/-- C2 witness: inserting `{x: 1}` at the absent identifier 1 via a
`"replace"` message on the empty collection. -/
theorem C2_witness :
    ReplicationStore.update Collection.empty ⟨"replace", 1, none, some exDoc⟩ =
      .ok (Collection.empty.insert 1 exDoc) :=
  C2_replace_inserts Collection.empty ⟨"replace", 1, none, some exDoc⟩ exDoc rfl rfl rfl

/-- A collection holding the single document `{x: 1}` at identifier 1,
used by concrete witnesses. -/
def cPresent : Collection := ⟨[(1, exDoc)], []⟩

/-! ### C4 -/

/-- C4: on an absent identifier, a `removed` message throws while a
`replace` message with no replacement document is a silent no-op leaving
the collection (documents and recorded events) unchanged; on a present
identifier, a `replace` message with no replacement document removes the
document. -/
theorem C4_removed_fatal_replace_noop (c : Collection) (id : DocId) :
    ((c.getDoc id).isSome = false →
        updOk (ReplicationStore.update c ⟨"removed", id, none, none⟩) = false ∧
        ReplicationStore.update c ⟨"replace", id, none, none⟩ = .ok c) ∧
    ((c.getDoc id).isSome = true →
        ReplicationStore.update c ⟨"replace", id, none, none⟩ = .ok (c.remove id)) := by
  cases hd : c.getDoc id with
  | none =>
      refine ⟨fun _ => ⟨?_, ?_⟩, fun hcon => by simp [hd] at hcon⟩
      · simp [ReplicationStore.update, hd, updOk, idParse]
      · simp [ReplicationStore.update, hd, ReplicationStore.processReplace, idParse]
  | some d =>
      refine ⟨fun hcon => by simp [hd] at hcon, fun _ => ?_⟩
      simp [ReplicationStore.update, hd, ReplicationStore.processReplace, idParse]

/-- C4 witness: identifier 2 is absent from `cPresent` (removed throws,
replace-with-none is a no-op); identifier 1 is present (replace-with-none
removes it). -/
theorem C4_witness :
    (updOk (ReplicationStore.update cPresent ⟨"removed", 2, none, none⟩) = false ∧
     ReplicationStore.update cPresent ⟨"replace", 2, none, none⟩ = .ok cPresent) ∧
    ReplicationStore.update cPresent ⟨"replace", 1, none, none⟩ = .ok (cPresent.remove 1) :=
  ⟨(C4_removed_fatal_replace_noop cPresent 2).1 rfl,
   (C4_removed_fatal_replace_noop cPresent 1).2 rfl⟩

/-! ### C8 -/

/-- C8 counterexample: an `added` message with no `fields` mapping does
not raise — spreading a missing `fields` contributes nothing, so a bare
document is inserted without error. -/
theorem C8_counterexample :
    ReplicationStore.update Collection.empty ⟨"added", 1, none, none⟩ =
      .ok (Collection.empty.insert 1 []) := rfl

/-- C8 (amended): a `changed` message with no `fields` mapping on a
present document raises an error surfaced synchronously to the caller
(the `TypeError` from `Object.keys` on a missing mapping), while an
`added` message with no `fields` mapping does not raise and inserts a
document with no fields. -/
theorem C8_missing_fields (c : Collection) (id : DocId) :
    ((c.getDoc id).isSome = true →
        updOk (ReplicationStore.update c ⟨"changed", id, none, none⟩) = false) ∧
    ((c.getDoc id).isSome = false →
        ReplicationStore.update c ⟨"added", id, none, none⟩ = .ok (c.insert id [])) := by
  cases hd : c.getDoc id with
  | none =>
      refine ⟨fun hcon => by simp [hd] at hcon, fun _ => ?_⟩
      simp [ReplicationStore.update, hd, idParse, ReplicationStore.processAdded, fieldsToDoc]
  | some d =>
      refine ⟨fun _ => ?_, fun hcon => by simp [hd] at hcon⟩
      simp [ReplicationStore.update, hd, idParse, ReplicationStore.processChanged, updOk]

/-- C8 witness: `changed` with no fields on the present identifier 1
throws; `added` with no fields at the absent identifier 2 succeeds. -/
theorem C8_witness :
    updOk (ReplicationStore.update cPresent ⟨"changed", 1, none, none⟩) = false ∧
    ReplicationStore.update cPresent ⟨"added", 2, none, none⟩ = .ok (cPresent.insert 2 []) :=
  ⟨(C8_missing_fields cPresent 1).1 rfl, (C8_missing_fields cPresent 2).2 rfl⟩

/-! ### C5 -/

/-- C5: `beginUpdate` suspends notifications (records a pause) exactly
when `batchSize > 1` or `reset`; a reset clears every document before any
message of the batch is processed; and the end-to-end example: a replica
holding documents 1 and 2, given a reset batch whose single message adds
`{x: 1}` at identifier 3, ends holding exactly that document. -/
theorem C5_beginUpdate_spec (c : Collection) (batchSize : Nat) (reset : Bool) :
    countPause (ReplicationStore.beginUpdate c batchSize reset).events =
      countPause c.events + (if batchSize > 1 ∨ reset = true then 1 else 0) ∧
    (reset = true → (ReplicationStore.beginUpdate c batchSize reset).docs = []) ∧
    ReplicationStore.runBatch ⟨[(1, [("a", Val.num 5)]), (2, [("b", Val.num 6)])], []⟩ 1 true
        [⟨"added", 3, some [("x", some (Val.num 1))], none⟩] =
      .ok ⟨[(3, [("x", Val.num 1)])],
        [Event.pauseObservers, Event.removeAll, Event.insertEv 3 [("x", Val.num 1)],
         Event.resumeObservers]⟩ := by
  refine ⟨?_, ?_, rfl⟩
  · cases reset with
    | true =>
        by_cases hb : batchSize > 1 <;>
          simp [ReplicationStore.beginUpdate, Collection.pauseObservers,
            Collection.removeAllDocs, countPause_append, hb, countPause]
    | false =>
        by_cases hb : batchSize > 1 <;>
          simp [ReplicationStore.beginUpdate, Collection.pauseObservers,
            countPause_append, hb, countPause]
  · intro hr
    subst hr
    simp [ReplicationStore.beginUpdate, Collection.removeAllDocs]

/-- C5 witness: batch size 3 without reset records exactly one pause on
the empty collection, and a reset batch clears the documents. -/
theorem C5_witness :
    countPause (ReplicationStore.beginUpdate Collection.empty 3 false).events =
      countPause Collection.empty.events + 1 ∧
    (ReplicationStore.beginUpdate Collection.empty 1 true).docs = [] := by
  have h3 := C5_beginUpdate_spec Collection.empty 3 false
  have h1 := C5_beginUpdate_spec Collection.empty 1 true
  exact ⟨by simpa using h3.1, h1.2.1 rfl⟩

/-! ### C6 -/

theorem foldl_modStep_noop (d : Doc) (fs : List (String × Option Val)) (acc : Modifier)
    (h : ∀ kv ∈ fs, docGet d kv.1 = kv.2) :
    fs.foldl (modStep d) acc = acc := by
  induction fs generalizing acc with
  | nil => rfl
  | cons kv rest ih =>
      have hstep : modStep d acc kv = acc := by
        simp [modStep, h kv (List.mem_cons_self kv rest)]
      rw [List.foldl_cons, hstep]
      exact ih acc (fun x hx => h x (List.mem_cons_of_mem kv hx))

/-- C6: a `changed` message whose proposed field values are all
deep-equal to the current ones computes an empty modifier and issues no
store mutation — the collection (documents and recorded events) is
returned unchanged. -/
theorem C6_changed_noop (c : Collection) (id : DocId) (d : Doc)
    (fs : List (String × Option Val))
    (hdoc : c.getDoc id = some d)
    (h : ∀ kv ∈ fs, docGet d kv.1 = kv.2) :
    computeModifier d fs = ⟨[], []⟩ ∧
    ReplicationStore.update c ⟨"changed", id, some fs, none⟩ = .ok c := by
  have hm : computeModifier d fs = ⟨[], []⟩ := foldl_modStep_noop d fs ⟨[], []⟩ h
  refine ⟨hm, ?_⟩
  by_cases hlen : fs.length > 0 <;>
    simp [ReplicationStore.update, hdoc, idParse, ReplicationStore.processChanged, hm,
      Modifier.nonEmpty, hlen]

/-- C6 witness: proposing `x = 1` (already its value) and `y = undefined`
(already absent) on the document `{x: 1}` is the identity. -/
theorem C6_witness :
    computeModifier exDoc [("x", some (Val.num 1)), ("y", none)] = ⟨[], []⟩ ∧
    ReplicationStore.update cPresent
        ⟨"changed", 1, some [("x", some (Val.num 1)), ("y", none)], none⟩ =
      .ok cPresent :=
  C6_changed_noop cPresent 1 exDoc [("x", some (Val.num 1)), ("y", none)] rfl (by decide)

/-! ### C9 -/

/-- The `$set` entries `computeModifier` produces, described directly:
proposed values that are present and not deep-equal to the current
value. -/
def setEntries (d : Doc) (fs : List (String × Option Val)) : List (String × Val) :=
  fs.filterMap (fun kv =>
    match kv.2 with
    | some v => if docGet d kv.1 = some v then none else some (kv.1, v)
    | none => none)

/-- The `$unset` entries `computeModifier` produces, described directly:
fields proposed absent that currently hold a value. -/
def unsetEntries (d : Doc) (fs : List (String × Option Val)) : List String :=
  fs.filterMap (fun kv =>
    match kv.2 with
    | some _ => none
    | none => if docGet d kv.1 = none then none else some kv.1)

theorem foldl_modStep_eq (d : Doc) (fs : List (String × Option Val)) (acc : Modifier) :
    fs.foldl (modStep d) acc =
      ⟨acc.set ++ setEntries d fs, acc.unset ++ unsetEntries d fs⟩ := by
  induction fs generalizing acc with
  | nil => simp [setEntries, unsetEntries]
  | cons kv rest ih =>
      obtain ⟨k, v⟩ := kv
      rw [List.foldl_cons, ih]
      cases v with
      | none =>
          by_cases hq : docGet d k = none <;>
            simp [modStep, hq, setEntries, unsetEntries, List.filterMap_cons]
      | some x =>
          by_cases hq : docGet d k = some x <;>
            simp [modStep, hq, setEntries, unsetEntries, List.filterMap_cons]

theorem computeModifier_eq (d : Doc) (fs : List (String × Option Val)) :
    computeModifier d fs = ⟨setEntries d fs, unsetEntries d fs⟩ := by
  simpa [computeModifier] using foldl_modStep_eq d fs ⟨[], []⟩

theorem mem_setEntries (d : Doc) (fs : List (String × Option Val)) (k : String) (w : Val)
    (h : (k, w) ∈ setEntries d fs) : (k, some w) ∈ fs ∧ docGet d k ≠ some w := by
  simp only [setEntries, List.mem_filterMap] at h
  obtain ⟨⟨a, b⟩, hab, hf⟩ := h
  cases b with
  | none => simp at hf
  | some x =>
      by_cases hq : docGet d a = some x
      · simp [hq] at hf
      · simp only [hq, if_false, Option.some.injEq, Prod.mk.injEq] at hf
        obtain ⟨h1, h2⟩ := hf
        subst h1
        subst h2
        exact ⟨hab, hq⟩

theorem mem_unsetEntries (d : Doc) (fs : List (String × Option Val)) (k : String)
    (h : k ∈ unsetEntries d fs) : (k, (none : Option Val)) ∈ fs ∧ docGet d k ≠ none := by
  simp only [unsetEntries, List.mem_filterMap] at h
  obtain ⟨⟨a, b⟩, hab, hf⟩ := h
  cases b with
  | some x => simp at hf
  | none =>
      by_cases hq : docGet d a = none
      · simp [hq] at hf
      · simp only [hq, if_false, Option.some.injEq] at hf
        subst hf
        exact ⟨hab, hq⟩

/-- C9: for a document and a proposed field mapping with no duplicate
field names, the computed patch has disjoint `$set` and `$unset` key
sets, and a field appears in either component only when its proposed
value differs (by deep equality) from the current stored value. -/
theorem C9_patch_invariants (d : Doc) (fs : List (String × Option Val))
    (hnd : (fs.map Prod.fst).Nodup) :
    (∀ k, k ∈ (computeModifier d fs).set.map Prod.fst →
        k ∉ (computeModifier d fs).unset) ∧
    (∀ k w, (k, w) ∈ (computeModifier d fs).set →
        (k, some w) ∈ fs ∧ docGet d k ≠ some w) ∧
    (∀ k, k ∈ (computeModifier d fs).unset →
        (k, (none : Option Val)) ∈ fs ∧ docGet d k ≠ none) := by
  rw [computeModifier_eq]
  refine ⟨?_, ?_, ?_⟩
  · intro k hset hunset
    obtain ⟨⟨a, w⟩, haw, hk⟩ := List.mem_map.mp hset
    simp only at hk
    subst hk
    have h1 := mem_setEntries d fs a w haw
    have h2 := mem_unsetEntries d fs a hunset
    have heq := List.inj_on_of_nodup_map hnd h1.1 h2.1 rfl
    simp at heq
  · intro k w hk
    exact mem_setEntries d fs k w hk
  · intro k hk
    exact mem_unsetEntries d fs k hk

/-- C9 witness: over the document `{x: 1}` the proposal
`{x: 2, y: undefined}` has duplicate-free keys, so the patch invariants
hold for it. -/
theorem C9_witness :
    (∀ k, k ∈ (computeModifier exDoc [("x", some (Val.num 2)), ("y", none)]).set.map Prod.fst →
        k ∉ (computeModifier exDoc [("x", some (Val.num 2)), ("y", none)]).unset) ∧
    (∀ k w, (k, w) ∈ (computeModifier exDoc [("x", some (Val.num 2)), ("y", none)]).set →
        (k, some w) ∈ [("x", some (Val.num 2)), ("y", none)] ∧ docGet exDoc k ≠ some w) ∧
    (∀ k, k ∈ (computeModifier exDoc [("x", some (Val.num 2)), ("y", none)]).unset →
        (k, (none : Option Val)) ∈ [("x", some (Val.num 2)), ("y", none)] ∧
        docGet exDoc k ≠ none) :=
  C9_patch_invariants exDoc [("x", some (Val.num 2)), ("y", none)] (by decide)

/-! ### C7 -/

/-- C7: a `changed` message proposing the absent sentinel for a field
that currently holds a value puts exactly that field in `$unset`,
forwards the patch to the store, and applying the patch removes the
field while leaving every other field intact; in particular
`{id:1, a:5, b:7}` with `Changed{id:1, fields:{b: absent}}` yields
`{id:1, a:5}`. -/
theorem C7_changed_unset (c : Collection) (id : DocId) (d : Doc) (k : String) (v : Val)
    (hdoc : c.getDoc id = some d) (hk : docGet d k = some v) :
    computeModifier d [(k, none)] = ⟨[], [k]⟩ ∧
    ReplicationStore.update c ⟨"changed", id, some [(k, none)], none⟩ =
      .ok (c.updateModifier id ⟨[], [k]⟩) ∧
    docGet (applyModifier d ⟨[], [k]⟩) k = none ∧
    (∀ k2, k2 ≠ k → docGet (applyModifier d ⟨[], [k]⟩) k2 = docGet d k2) ∧
    ReplicationStore.update ⟨[(1, [("a", Val.num 5), ("b", Val.num 7)])], []⟩
        ⟨"changed", 1, some [("b", none)], none⟩ =
      .ok ⟨[(1, [("a", Val.num 5)])], [Event.updateEv 1]⟩ := by
  have hm : computeModifier d [(k, none)] = ⟨[], [k]⟩ := by
    simp [computeModifier, modStep, hk]
  refine ⟨hm, ?_, ?_, ?_, rfl⟩
  · simp [ReplicationStore.update, hdoc, idParse, ReplicationStore.processChanged, hm,
      Modifier.nonEmpty]
  · simp [applyModifier, docGet_docUnset]
  · intro k2 hk2
    simp [applyModifier, docGet_docUnset, hk2]

/-- C7 witness: the claim instantiated at the document `{a:5, b:7}`
stored at identifier 1 and the message unsetting `b`. -/
theorem C7_witness :
    computeModifier [("a", Val.num 5), ("b", Val.num 7)] [("b", none)] = ⟨[], ["b"]⟩ ∧
    ReplicationStore.update ⟨[(1, [("a", Val.num 5), ("b", Val.num 7)])], []⟩
        ⟨"changed", 1, some [("b", none)], none⟩ =
      .ok ((⟨[(1, [("a", Val.num 5), ("b", Val.num 7)])], []⟩ : Collection).updateModifier
        1 ⟨[], ["b"]⟩) ∧
    docGet (applyModifier [("a", Val.num 5), ("b", Val.num 7)] ⟨[], ["b"]⟩) "b" = none ∧
    docGet (applyModifier [("a", Val.num 5), ("b", Val.num 7)] ⟨[], ["b"]⟩) "a" =
      docGet [("a", Val.num 5), ("b", Val.num 7)] "a" := by
  have h := C7_changed_unset ⟨[(1, [("a", Val.num 5), ("b", Val.num 7)])], []⟩ 1
    [("a", Val.num 5), ("b", Val.num 7)] "b" (Val.num 7) (by decide) (by decide)
  exact ⟨h.1, h.2.1, h.2.2.1, h.2.2.2.1 "a" (by decide)⟩

/-! ### C1 -/

theorem processChanged_isOk (c : Collection) (id : DocId) (d : Doc) (m : Msg)
    (fs : List (String × Option Val)) (hf : m.fields = some fs) :
    updOk (ReplicationStore.processChanged c id d m) = true := by
  simp only [ReplicationStore.processChanged, hf]
  by_cases hlen : fs.length > 0 <;>
    by_cases hne : (computeModifier d fs).nonEmpty = true <;>
      simp [hlen, hne, updOk]

/-- A well-formed message carries the `fields` mapping its tag requires
(§6 wire shape: `added` and `changed` carry `fields`). -/
def wellFormedMsg (m : Msg) : Prop :=
  (m.msg = "added" ∨ m.msg = "changed") → m.fields.isSome = true

/-- C1: for a well-formed message, `update` throws if and only if the
message is `added` with the identifier present, `removed` with the
identifier absent, `changed` with the identifier absent, or carries a
tag the dispatcher does not recognize; in every other case it completes
without error.  Errors are values returned synchronously to the caller;
there is no retry. -/
theorem C1_update_error_iff (c : Collection) (m : Msg) (hwf : wellFormedMsg m) :
    updOk (ReplicationStore.update c m) = false ↔
      (m.msg = "added" ∧ (c.getDoc (idParse m.id)).isSome = true) ∨
      (m.msg = "removed" ∧ (c.getDoc (idParse m.id)).isSome = false) ∨
      (m.msg = "changed" ∧ (c.getDoc (idParse m.id)).isSome = false) ∨
      (m.msg ≠ "replace" ∧ m.msg ≠ "added" ∧ m.msg ≠ "removed" ∧ m.msg ≠ "changed") := by
  by_cases h1 : m.msg = "replace"
  · simp [ReplicationStore.update, h1, updOk]
  · by_cases h2 : m.msg = "added"
    · cases hd : c.getDoc (idParse m.id) with
      | some d => simp [ReplicationStore.update, h1, h2, hd, updOk]
      | none => simp [ReplicationStore.update, h1, h2, hd, updOk]
    · by_cases h3 : m.msg = "removed"
      · cases hd : c.getDoc (idParse m.id) with
        | some d => simp [ReplicationStore.update, h1, h2, h3, hd, updOk]
        | none => simp [ReplicationStore.update, h1, h2, h3, hd, updOk]
      · by_cases h4 : m.msg = "changed"
        · cases hd : c.getDoc (idParse m.id) with
          | some d =>
              obtain ⟨fs, hf⟩ := Option.isSome_iff_exists.mp (hwf (Or.inr h4))
              have hok := processChanged_isOk c (idParse m.id) d m fs hf
              simp [ReplicationStore.update, h1, h2, h3, h4, hd, hok]
          | none => simp [ReplicationStore.update, h1, h2, h3, h4, hd, updOk]
        · simp [ReplicationStore.update, h1, h2, h3, h4, updOk]

/-- C1 witness: `removed` on an identifier absent from the empty
collection throws. -/
theorem C1_witness :
    updOk (ReplicationStore.update Collection.empty ⟨"removed", 1, none, none⟩) = false := by
  have h := C1_update_error_iff Collection.empty ⟨"removed", 1, none, none⟩
    (fun hcon => absurd hcon (by decide))
  exact h.mpr (by decide)

/-! ### C3 -/

theorem insert_counts (c : Collection) (id : DocId) (d : Doc) :
    countPause (c.insert id d).events = countPause c.events ∧
    countResume (c.insert id d).events = countResume c.events := by
  simp [Collection.insert, countPause_append, countResume_append, countPause, countResume]

theorem remove_counts (c : Collection) (id : DocId) :
    countPause (c.remove id).events = countPause c.events ∧
    countResume (c.remove id).events = countResume c.events := by
  simp [Collection.remove, countPause_append, countResume_append, countPause, countResume]

theorem updateModifier_counts (c : Collection) (id : DocId) (mo : Modifier) :
    countPause (c.updateModifier id mo).events = countPause c.events ∧
    countResume (c.updateModifier id mo).events = countResume c.events := by
  simp [Collection.updateModifier, countPause_append, countResume_append, countPause,
    countResume]

theorem updateReplace_counts (c : Collection) (id : DocId) (d : Doc) :
    countPause (c.updateReplace id d).events = countPause c.events ∧
    countResume (c.updateReplace id d).events = countResume c.events := by
  simp [Collection.updateReplace, countPause_append, countResume_append, countPause,
    countResume]

/-- A successful `update` never pauses or resumes observers. -/
theorem update_ok_counts (c : Collection) (m : Msg) (c2 : Collection)
    (h : ReplicationStore.update c m = .ok c2) :
    countPause c2.events = countPause c.events ∧
    countResume c2.events = countResume c.events := by
  simp only [ReplicationStore.update, ReplicationStore.processAdded,
    ReplicationStore.processRemoved, ReplicationStore.processChanged,
    ReplicationStore.processReplace] at h
  repeat' split at h
  all_goals
    first
      | exact Except.noConfusion h
      | (obtain rfl := Except.ok.inj h
         first
           | exact ⟨rfl, rfl⟩
           | exact insert_counts c _ _
           | exact remove_counts c _
           | exact updateModifier_counts c _ _
           | exact updateReplace_counts c _ _)

theorem applyAll_ok_counts (msgs : List Msg) (c c2 : Collection)
    (h : ReplicationStore.applyAll c msgs = .ok c2) :
    countPause c2.events = countPause c.events ∧
    countResume c2.events = countResume c.events := by
  induction msgs generalizing c with
  | nil =>
      simp only [ReplicationStore.applyAll, Except.ok.injEq] at h
      subst h
      exact ⟨rfl, rfl⟩
  | cons m rest ih =>
      simp only [ReplicationStore.applyAll] at h
      cases hu : ReplicationStore.update c m with
      | ok cmid =>
          simp only [hu] at h
          have h1 := update_ok_counts c m cmid hu
          have h2 := ih cmid h
          exact ⟨h2.1.trans h1.1, h2.2.trans h1.2⟩
      | error e =>
          simp only [hu] at h
          cases h

theorem beginUpdate_counts (c : Collection) (batchSize : Nat) (reset : Bool) :
    countPause (ReplicationStore.beginUpdate c batchSize reset).events =
      countPause c.events + (if batchSize > 1 ∨ reset = true then 1 else 0) ∧
    countResume (ReplicationStore.beginUpdate c batchSize reset).events =
      countResume c.events := by
  cases reset with
  | true =>
      by_cases hb : batchSize > 1 <;>
        simp [ReplicationStore.beginUpdate, Collection.pauseObservers,
          Collection.removeAllDocs, countPause_append, countResume_append, hb,
          countPause, countResume]
  | false =>
      by_cases hb : batchSize > 1 <;>
        simp [ReplicationStore.beginUpdate, Collection.pauseObservers,
          countPause_append, countResume_append, hb, countPause, countResume]

theorem endUpdate_counts (c : Collection) :
    countPause (ReplicationStore.endUpdate c).events = countPause c.events ∧
    countResume (ReplicationStore.endUpdate c).events = countResume c.events + 1 := by
  simp [ReplicationStore.endUpdate, Collection.resumeObservers, countPause_append,
    countResume_append, countPause, countResume]

/-- C3 counterexample: a batch opened with `batchSize = 1` and
`reset = false` still triggers exactly one resume on the store — the
claim that such a batch never triggers a resume is false. -/
theorem C3_counterexample :
    ReplicationStore.runBatch Collection.empty 1 false [] =
      .ok ⟨[], [Event.resumeObservers]⟩ ∧
    countResume [Event.resumeObservers] = 1 ∧
    countPause [Event.resumeObservers] = 0 := ⟨rfl, rfl, rfl⟩

/-- C3 (amended): over a completed `beginUpdate`/`endUpdate` pair,
observers are paused exactly once when `batchSize > 1` or `reset` and
zero times otherwise, and `endUpdate` resumes exactly once
unconditionally — even when nothing was suspended. -/
theorem C3_batch_pause_resume (c : Collection) (batchSize : Nat) (reset : Bool)
    (msgs : List Msg) (c2 : Collection)
    (h : ReplicationStore.runBatch c batchSize reset msgs = .ok c2) :
    countPause c2.events =
      countPause c.events + (if batchSize > 1 ∨ reset = true then 1 else 0) ∧
    countResume c2.events = countResume c.events + 1 := by
  unfold ReplicationStore.runBatch at h
  cases ha : ReplicationStore.applyAll (ReplicationStore.beginUpdate c batchSize reset) msgs with
  | error e =>
      simp only [ha] at h
      cases h
  | ok cmid =>
      simp only [ha, Except.ok.injEq] at h
      subst h
      have hb := beginUpdate_counts c batchSize reset
      have hm := applyAll_ok_counts msgs _ cmid ha
      have he := endUpdate_counts cmid
      constructor
      · rw [he.1, hm.1, hb.1]
      · rw [he.2, hm.2, hb.2]

/-- C3 witness: a three-message-sized batch with no reset and no
messages pauses once and resumes once. -/
theorem C3_witness :
    countPause (⟨[], [Event.pauseObservers, Event.resumeObservers]⟩ : Collection).events =
      countPause Collection.empty.events + (if (3 : Nat) > 1 ∨ false = true then 1 else 0) ∧
    countResume (⟨[], [Event.pauseObservers, Event.resumeObservers]⟩ : Collection).events =
      countResume Collection.empty.events + 1 :=
  C3_batch_pause_resume Collection.empty 3 false []
    ⟨[], [Event.pauseObservers, Event.resumeObservers]⟩ rfl

/-! ### C10 -/

/-- C10: whenever `update` throws — precondition violation, unknown tag,
or the missing-fields `TypeError` — the collection at the throw point is
exactly the collection passed in: no mutation happens before the error
is raised. -/
theorem C10_error_preserves_state (c : Collection) (m : Msg) (s : String) (c2 : Collection)
    (h : ReplicationStore.update c m = .error (s, c2)) : c2 = c := by
  simp only [ReplicationStore.update, ReplicationStore.processAdded,
    ReplicationStore.processRemoved, ReplicationStore.processChanged,
    ReplicationStore.processReplace] at h
  repeat' split at h
  all_goals
    first
      | exact Except.noConfusion h
      | exact (congrArg Prod.snd (Except.error.inj h)).symm

/-- C10 witness: `added` on the already-present identifier 1 throws and
the error carries the untouched collection. -/
theorem C10_witness : cPresent = cPresent :=
  C10_error_preserves_state cPresent ⟨"added", 1, none, none⟩
    "Expected not to find a document already present for an add" cPresent rfl
